import Mathlib

/-!
Shallow embedding of the MB2 bubble-level firmware (src/main.rs).

Modelling conventions:
- Machine integers are modelled as ℤ with explicit two's-complement wrapping
  where overflow matters (the only overflowing operation in the program is the
  i32 negation in LEDs::update; release builds of Rust wrap it).
- The f32 values of the orientation mapper are modelled as exact rationals.
  Every concrete value exercised by the claims is exactly representable in f32,
  and the universally quantified claims proved below depend only on the sign and
  order structure of the computed coordinates, which IEEE-754 rounding (a
  monotone map agreeing with the exact value on representable results)
  preserves.
- The hardware cooldown timer and the GPIOTE channel flags live in the HAL
  crates, outside this repository; they are modelled from the collaborator
  contract of the spec (read gives ticks remaining, 0 means ready; start loads a
  fixed cooldown), with time as an absolute tick count passed to each
  interrupt-handler invocation.
-/

/-- Rust constant DISPLAY_REFRESH_RATE_MS. -/
def DISPLAY_REFRESH_RATE_MS : ℕ := 200

/-- Rust constant LED_SIZE: the MB2 LED grid is 5x5. -/
def LED_SIZE : ℕ := 5

/-- Rust type LEDState = [[u8; LED_SIZE]; LED_SIZE], modelled as a total
function from (row, column) to the cell byte; all writes performed by the
program are at indices below LED_SIZE (lemma clamp_lt below). -/
abbrev LEDState := ℕ → ℕ → ℕ

/-- Rust constant DEBOUNCE_TIME: 100 ms at a 1 MHz count rate. -/
def DEBOUNCE_TIME : ℕ := 100 * 1000000 / 1000

/-- Smallest value of the Rust i32 type. -/
def I32_MIN : ℤ := -(2 ^ 31)

/-- Largest value of the Rust i32 type. -/
def I32_MAX : ℤ := 2 ^ 31 - 1

/-- Two's-complement wrapping negation of an i32, the release-build semantics
of the Rust expression -x at type i32 (the expression (-x as f32) in
LEDs::update parses as ((-x) as f32), so the negation happens at type i32).
Int.bmod picks the representative in the interval from -(2^31) to 2^31 - 1. -/
def ineg32 (x : ℤ) : ℤ := Int.bmod (-x) (2 ^ 32)

/-- Rust enum BubbleResolution. -/
inductive BubbleResolution
  | Coarse
  | Fine
  deriving DecidableEq

/-- Integer code of a variant: the Rust cast (BubbleResolution as u8),
Coarse = 0, Fine = 1. -/
def BubbleResolution.toU8 : BubbleResolution → ℕ
  | .Coarse => 0
  | .Fine => 1

/-- Rust impl TryFrom u8 for BubbleResolution: Ok for the byte codes 0 and 1,
Err (modelled as none) for every other byte. -/
def BubbleResolution.tryFrom (value : ℕ) : Option BubbleResolution :=
  match value with
  | 0 => some BubbleResolution.Coarse
  | 1 => some BubbleResolution.Fine
  | _ => none

/-- Rust struct LEDs: the 5x5 cell state and the current resolution mode. -/
structure LEDs where
  state : LEDState
  mode : BubbleResolution

/-- Rust constant LEDs::COARSE_DIVS: mG per LED in Coarse mode. -/
def LEDs.COARSE_DIVS : ℚ := 250

/-- Rust constant LEDs::FINE_DIVS: mG per LED in Fine mode. -/
def LEDs.FINE_DIVS : ℚ := 25

/-- Rust LEDs::new: all LEDs off, mode Coarse. -/
def LEDs.new : LEDs :=
  { state := fun _ _ => 0, mode := BubbleResolution.Coarse }

/-- Rust LEDs::clear: reset the state to all zeros, keeping the mode. -/
def LEDs.clear (l : LEDs) : LEDs :=
  { l with state := fun _ _ => 0 }

/-- Rust LEDs::set_mode: update the resolution mode, keeping the state. -/
def LEDs.set_mode (l : LEDs) (mode : BubbleResolution) : LEDs :=
  { l with mode := mode }

/-- Truncation toward zero: the Rust cast (f32 as i32) for in-range values.
The cast saturates outside the i32 range, but the only call site of
LEDs::round (the middle branch of LEDs::clamp) passes 0 < value < 4, where the
cast is plain truncation toward zero, which is what is modelled. -/
def truncQ (number : ℚ) : ℤ :=
  if number < 0 then -⌊-number⌋ else ⌊number⌋

/-- Rust LEDs::round: truncate toward zero, then add one if the lost decimal
remainder is at least one half. -/
def LEDs.round (number : ℚ) : ℤ :=
  let integer : ℤ := truncQ number
  let remainder : ℚ := number - (integer : ℚ)
  if remainder ≥ 1 / 2 then integer + 1 else integer

/-- Rust LEDs::clamp: values at most 0 clamp to index 0, values at least
LED_SIZE - 1 clamp to index LED_SIZE - 1, values strictly in between are
rounded to the nearest pixel (the cast to usize is safe because the middle
branch only sees positive values). -/
def LEDs.clamp (value : ℚ) : ℕ :=
  if value ≤ 0 then 0
  else if value ≥ ((LED_SIZE - 1 : ℕ) : ℚ) then LED_SIZE - 1
  else (LEDs.round value).toNat

/-- Write 1 into cell (i, j) of a grid: the Rust statement
self.state[i][j] = 1. -/
def setCell (s : LEDState) (i j : ℕ) : LEDState :=
  fun a b => if a = i ∧ b = j then 1 else s a b

/-- Rust LEDs::update: if the board is upside-down (z > 0) return the cleared
state; otherwise pick the divisor for the current mode, clear the state,
compute the two pixel coordinates (the x coordinate is flipped for the axis),
clamp each, and light exactly the cell indexed by the clamped y pixel (row)
and the clamped x pixel (column). Returns the updated struct together with
the returned LEDState value. -/
def LEDs.update (l : LEDs) (x y z : ℤ) : LEDs × LEDState :=
  if z > 0 then
    let l2 := l.clear
    (l2, l2.state)
  else
    let divs : ℚ :=
      match l.mode with
      | BubbleResolution.Coarse => LEDs.COARSE_DIVS
      | BubbleResolution.Fine => LEDs.FINE_DIVS
    let l2 := l.clear
    let x_pix : ℚ := ((ineg32 x : ℤ) : ℚ) / divs + 2
    let y_pix : ℚ := ((y : ℤ) : ℚ) / divs + 2
    let x_index : ℕ := LEDs.clamp y_pix
    let y_index : ℕ := LEDs.clamp x_pix
    let l3 := { l2 with state := setCell l2.state x_index y_index }
    (l3, l3.state)

/-- Divisor selected by a resolution mode: names the match expression inside
LEDs::update for use in specification statements. -/
def divsOf : BubbleResolution → ℚ
  | BubbleResolution.Coarse => LEDs.COARSE_DIVS
  | BubbleResolution.Fine => LEDs.FINE_DIVS

/-- Which GPIOTE channel (button) fired: channel 0 is button A, channel 1 is
button B. An interrupt-handler invocation services exactly one pending
channel (the source checks channel 0 first, else channel 1). -/
inductive Channel
  | A
  | B
  deriving DecidableEq

/-- State shared with or owned by the interrupt context: the RESOLUTION
atomic byte, the absolute tick at which the running cooldown expires (the
hardware countdown timer reads as ticks remaining, so its value at absolute
time t is cooldownEnd - t, truncated at zero), and the log of every store
performed on the RESOLUTION atomic. -/
structure IrqState where
  resolution : ℕ
  cooldownEnd : ℕ
  storeLog : List ℕ

/-- Modelled from the spec: read of the cooldown timer (collaborator contract,
spec section 6) — ticks remaining until the cooldown expires, 0 when ready.
The hardware timer itself lives in the HAL crate, outside this repository. -/
def timerRead (cooldownEnd t : ℕ) : ℕ := cooldownEnd - t

/-- Rust fn GPIOTE, the interrupt handler, as a step function taking the
absolute arrival tick of the edge event and the channel that fired: if the
debounce timer reads 0 the press is debounced — the timer is started
(cooldown ends DEBOUNCE_TIME ticks from now) and the resolution code of the
button (A stores Coarse, B stores Fine) is stored into RESOLUTION; otherwise
the edge is bounce noise — the pending event is cleared and nothing else
changes. -/
def GPIOTE_step (t : ℕ) (ch : Channel) (s : IrqState) : IrqState :=
  let debounced : Bool := timerRead s.cooldownEnd t == 0
  let cooldownEnd2 : ℕ := if debounced then t + DEBOUNCE_TIME else s.cooldownEnd
  match ch with
  | Channel.A =>
    if debounced then
      { resolution := BubbleResolution.Coarse.toU8, cooldownEnd := cooldownEnd2,
        storeLog := s.storeLog ++ [BubbleResolution.Coarse.toU8] }
    else
      { s with cooldownEnd := cooldownEnd2 }
  | Channel.B =>
    if debounced then
      { resolution := BubbleResolution.Fine.toU8, cooldownEnd := cooldownEnd2,
        storeLog := s.storeLog ++ [BubbleResolution.Fine.toU8] }
    else
      { s with cooldownEnd := cooldownEnd2 }

/-- Initial shared state: RESOLUTION is initialized to Coarse as u8 before
interrupts are enabled, no cooldown is running, no store has happened. -/
def initIrqState : IrqState :=
  { resolution := BubbleResolution.Coarse.toU8, cooldownEnd := 0, storeLog := [] }

/-- Run the interrupt handler over a list of timed edge events. -/
def runEvents (s : IrqState) (events : List (ℕ × Channel)) : IrqState :=
  events.foldl (fun acc e => GPIOTE_step e.1 e.2 acc) s

/-! Helper lemmas about the rounding and clamping pipeline. -/

lemma truncQ_of_nonneg (v : ℚ) (h : 0 ≤ v) : truncQ v = ⌊v⌋ := by
  unfold truncQ
  rw [if_neg (not_lt.mpr h)]

lemma round_eq_floor (v : ℚ) (h : 0 ≤ v) : LEDs.round v = ⌊v + 1 / 2⌋ := by
  unfold LEDs.round
  rw [truncQ_of_nonneg v h]
  have h1 : (⌊v⌋ : ℚ) ≤ v := Int.floor_le v
  have h2 : v < ⌊v⌋ + 1 := Int.lt_floor_add_one v
  by_cases hf : v - (⌊v⌋ : ℚ) ≥ 1 / 2
  · rw [if_pos hf]
    symm
    rw [Int.floor_eq_iff]
    constructor
    · push_cast
      linarith
    · push_cast
      linarith
  · rw [if_neg hf]
    symm
    rw [Int.floor_eq_iff]
    constructor
    · linarith
    · linarith

lemma round_mono_nonneg {a b : ℚ} (ha : 0 ≤ a) (hab : a ≤ b) :
    LEDs.round a ≤ LEDs.round b := by
  rw [round_eq_floor a ha, round_eq_floor b (le_trans ha hab)]
  exact Int.floor_mono (by linarith)

lemma round_two : LEDs.round 2 = 2 := by
  rw [round_eq_floor 2 (by norm_num)]
  norm_num

lemma clamp_eq_zero {v : ℚ} (h : v ≤ 0) : LEDs.clamp v = 0 := by
  unfold LEDs.clamp
  rw [if_pos h]

lemma clamp_eq_four {v : ℚ} (h : 4 ≤ v) : LEDs.clamp v = 4 := by
  unfold LEDs.clamp
  rw [if_neg (by linarith), if_pos (by norm_num [LED_SIZE]; exact h)]
  rfl

lemma clamp_eq_mid {v : ℚ} (h0 : 0 < v) (h4 : v < 4) :
    LEDs.clamp v = (LEDs.round v).toNat := by
  unfold LEDs.clamp
  rw [if_neg (not_le.mpr h0), if_neg (by norm_num [LED_SIZE]; linarith)]

lemma round_le_four {v : ℚ} (h0 : 0 < v) (h4 : v < 4) : LEDs.round v ≤ 4 := by
  rw [round_eq_floor v (le_of_lt h0)]
  have : ⌊v + 1 / 2⌋ < 5 := Int.floor_lt.mpr (by push_cast; linarith)
  omega

lemma clamp_lt (v : ℚ) : LEDs.clamp v < 5 := by
  by_cases h0 : v ≤ 0
  · rw [clamp_eq_zero h0]
    norm_num
  · by_cases h4 : 4 ≤ v
    · rw [clamp_eq_four h4]
      norm_num
    · rw [clamp_eq_mid (not_le.mp h0) (not_le.mp h4)]
      have := round_le_four (not_le.mp h0) (not_le.mp h4)
      omega

lemma clamp_mono {a b : ℚ} (hab : a ≤ b) : LEDs.clamp a ≤ LEDs.clamp b := by
  by_cases ha0 : a ≤ 0
  · rw [clamp_eq_zero ha0]
    exact Nat.zero_le _
  · have ha : 0 < a := not_le.mp ha0
    have hb : 0 < b := lt_of_lt_of_le ha hab
    by_cases hb4 : 4 ≤ b
    · rw [clamp_eq_four hb4]
      have := clamp_lt a
      omega
    · have hb4' : b < 4 := not_le.mp hb4
      have ha4 : a < 4 := lt_of_le_of_lt hab hb4'
      rw [clamp_eq_mid ha ha4, clamp_eq_mid hb hb4']
      have := round_mono_nonneg (le_of_lt ha) hab
      omega

lemma clamp_two : LEDs.clamp 2 = 2 := by
  rw [clamp_eq_mid (by norm_num) (by norm_num), round_two]
  rfl

lemma clamp_le_two {v : ℚ} (h : v ≤ 2) : LEDs.clamp v ≤ 2 := by
  have := clamp_mono h
  rwa [clamp_two] at this

lemma clamp_ge_two {v : ℚ} (h : 2 ≤ v) : 2 ≤ LEDs.clamp v := by
  have := clamp_mono h
  rwa [clamp_two] at this

lemma setCell_self (s : LEDState) (i j : ℕ) : setCell s i j i j = 1 := by
  simp [setCell]

lemma setCell_of_ne (s : LEDState) {i j a b : ℕ} (h : ¬(a = i ∧ b = j)) :
    setCell s i j a b = s a b := by
  simp only [setCell, if_neg h]

/-! Helper lemmas about LEDs.update. -/

lemma update_snd (l : LEDs) (x y z : ℤ) (hz : z ≤ 0) :
    (l.update x y z).2 =
      setCell (fun _ _ => 0) (LEDs.clamp ((y : ℚ) / divsOf l.mode + 2))
        (LEDs.clamp ((ineg32 x : ℚ) / divsOf l.mode + 2)) := by
  obtain ⟨st, m⟩ := l
  unfold LEDs.update
  rw [if_neg (not_lt.mpr hz)]
  cases m <;> rfl

lemma update_fst_mode (l : LEDs) (x y z : ℤ) :
    ((l.update x y z).1).mode = l.mode := by
  obtain ⟨st, m⟩ := l
  unfold LEDs.update
  by_cases hz : z > 0
  · rw [if_pos hz]
    rfl
  · rw [if_neg hz]
    cases m <;> rfl


/-! Per-axis monotonicity of the pixel pipeline in the divisor. -/

lemma axis_mono (a : ℤ) :
    (LEDs.clamp ((a : ℚ) / 25 + 2) ≤ LEDs.clamp ((a : ℚ) / 250 + 2) ∧
        LEDs.clamp ((a : ℚ) / 250 + 2) ≤ 2) ∨
      (2 ≤ LEDs.clamp ((a : ℚ) / 250 + 2) ∧
        LEDs.clamp ((a : ℚ) / 250 + 2) ≤ LEDs.clamp ((a : ℚ) / 25 + 2)) := by
  rcases le_total a 0 with ha | ha
  · left
    have h1 : (a : ℚ) ≤ 0 := by exact_mod_cast ha
    have h2 : (a : ℚ) / 25 ≤ (a : ℚ) / 250 := by
      rw [div_le_div_iff₀ (by norm_num) (by norm_num)]
      linarith
    have h3 : (a : ℚ) / 250 ≤ 0 := by
      rw [div_le_iff₀ (by norm_num : (0 : ℚ) < 250)]
      linarith
    exact ⟨clamp_mono (by linarith), clamp_le_two (by linarith)⟩
  · right
    have h1 : (0 : ℚ) ≤ (a : ℚ) := by exact_mod_cast ha
    have h2 : (a : ℚ) / 250 ≤ (a : ℚ) / 25 := by
      rw [div_le_div_iff₀ (by norm_num) (by norm_num)]
      linarith
    have h3 : (0 : ℚ) ≤ (a : ℚ) / 250 := by
      rw [le_div_iff₀ (by norm_num : (0 : ℚ) < 250)]
      linarith
    exact ⟨clamp_ge_two (by linarith), clamp_mono (by linarith)⟩

/-! Preservation of the resolution byte codes by the interrupt handler. -/

lemma GPIOTE_step_codes (t : ℕ) (ch : Channel) (s : IrqState)
    (h1 : s.resolution = 0 ∨ s.resolution = 1)
    (h2 : ∀ v ∈ s.storeLog, v = 0 ∨ v = 1) :
    ((GPIOTE_step t ch s).resolution = 0 ∨ (GPIOTE_step t ch s).resolution = 1) ∧
      ∀ v ∈ (GPIOTE_step t ch s).storeLog, v = 0 ∨ v = 1 := by
  unfold GPIOTE_step
  cases ch <;> dsimp only <;> split
  · refine ⟨Or.inl rfl, ?_⟩
    intro v hv
    rcases List.mem_append.mp hv with h | h
    · exact h2 v h
    · simp [BubbleResolution.toU8] at h
      exact Or.inl h
  · exact ⟨h1, h2⟩
  · refine ⟨Or.inr rfl, ?_⟩
    intro v hv
    rcases List.mem_append.mp hv with h | h
    · exact h2 v h
    · simp [BubbleResolution.toU8] at h
      exact Or.inr h
  · exact ⟨h1, h2⟩

lemma runEvents_codes (events : List (ℕ × Channel)) :
    ∀ s : IrqState, (s.resolution = 0 ∨ s.resolution = 1) →
      (∀ v ∈ s.storeLog, v = 0 ∨ v = 1) →
      ((runEvents s events).resolution = 0 ∨ (runEvents s events).resolution = 1) ∧
        ∀ v ∈ (runEvents s events).storeLog, v = 0 ∨ v = 1 := by
  induction events with
  | nil =>
      intro s h1 h2
      exact ⟨h1, h2⟩
  | cons e rest ih =>
      intro s h1 h2
      have hstep := GPIOTE_step_codes e.1 e.2 s h1 h2
      have hrun : runEvents s (e :: rest) = runEvents (GPIOTE_step e.1 e.2 s) rest := rfl
      rw [hrun]
      exact ih _ hstep.1 hstep.2

/-! Claim theorems. -/

/-- C1: for every pair of i32 inputs (x, y), every z ≤ 0, and any starting
struct (hence either fixed resolution mode), LEDs::update returns a grid with
exactly one lit cell, whose row and column indices both lie within [0, 4];
this holds for every input magnitude including i32::MIN and i32::MAX. -/
theorem C1_exactly_one_lit (l : LEDs) (x y z : ℤ) (hz : z ≤ 0) :
    ∃ i j : ℕ, i ≤ 4 ∧ j ≤ 4 ∧ (l.update x y z).2 i j = 1 ∧
      ∀ a b : ℕ, ¬(a = i ∧ b = j) → (l.update x y z).2 a b = 0 := by
  rw [update_snd l x y z hz]
  refine ⟨LEDs.clamp ((y : ℚ) / divsOf l.mode + 2),
    LEDs.clamp ((ineg32 x : ℚ) / divsOf l.mode + 2), ?_, ?_, setCell_self _ _ _, ?_⟩
  · have := clamp_lt ((y : ℚ) / divsOf l.mode + 2)
    omega
  · have := clamp_lt ((ineg32 x : ℚ) / divsOf l.mode + 2)
    omega
  · intro a b h
    rw [setCell_of_ne _ h]

/-- C1 witness: the extreme input x = i32::MAX, y = i32::MIN, z = 0. -/
theorem C1_exactly_one_lit_witness :
    ∃ i j : ℕ, i ≤ 4 ∧ j ≤ 4 ∧ (LEDs.new.update I32_MAX I32_MIN 0).2 i j = 1 ∧
      ∀ a b : ℕ, ¬(a = i ∧ b = j) → (LEDs.new.update I32_MAX I32_MIN 0).2 a b = 0 :=
  C1_exactly_one_lit LEDs.new I32_MAX I32_MIN 0 (by decide)

/-- C2, evaluated at the failing input: the Rust expression (-x as f32) in
LEDs::update negates at type i32, which overflows at x = i32::MIN. Under the
wrapping release semantics the negation returns i32::MIN itself, so the most
negative x lights the left-edge column 0, while the neighboring input
i32::MIN + 1 lights the right-edge column 4 — the claimed pure clamping to the
nearer grid edge is broken by the overflow (and a build with overflow checks
panics instead of returning a grid). -/
theorem C2_overflow_at_i32_min :
    ineg32 I32_MIN = I32_MIN ∧
    (LEDs.new.update I32_MIN 0 0).2 = setCell (fun _ _ => 0) 2 0 ∧
    (LEDs.new.update (I32_MIN + 1) 0 0).2 = setCell (fun _ _ => 0) 2 4 := by
  refine ⟨by decide, ?_, ?_⟩
  · rw [update_snd _ _ _ _ (by decide)]
    have e1 : ((0 : ℤ) : ℚ) / divsOf LEDs.new.mode + 2 = 2 := by
      norm_num [LEDs.new, divsOf, LEDs.COARSE_DIVS]
    have e2 : LEDs.clamp ((ineg32 I32_MIN : ℚ) / divsOf LEDs.new.mode + 2) = 0 := by
      rw [show ineg32 I32_MIN = I32_MIN from by decide]
      exact clamp_eq_zero (by norm_num [LEDs.new, divsOf, LEDs.COARSE_DIVS, I32_MIN])
    rw [e1, e2, clamp_two]
  · rw [update_snd _ _ _ _ (by decide)]
    have e1 : ((0 : ℤ) : ℚ) / divsOf LEDs.new.mode + 2 = 2 := by
      norm_num [LEDs.new, divsOf, LEDs.COARSE_DIVS]
    have e2 : LEDs.clamp ((ineg32 (I32_MIN + 1) : ℚ) / divsOf LEDs.new.mode + 2) = 4 := by
      rw [show ineg32 (I32_MIN + 1) = I32_MAX from by decide]
      exact clamp_eq_four (by norm_num [LEDs.new, divsOf, LEDs.COARSE_DIVS, I32_MAX])
    rw [e1, e2, clamp_two]

/-- C6: update(-500, 0, -1000) in Coarse mode computes the x pixel coordinate
500 / 250 + 2 = 4 and returns the grid whose single lit cell is at row 2,
column 4. -/
theorem C6_concrete_scenario :
    (ineg32 (-500) : ℚ) / LEDs.COARSE_DIVS + 2 = 4 ∧
    (LEDs.new.update (-500) 0 (-1000)).2 = setCell (fun _ _ => 0) 2 4 := by
  constructor
  · rw [show ineg32 (-500) = 500 from by decide]
    norm_num [LEDs.COARSE_DIVS]
  · rw [update_snd _ _ _ _ (by decide)]
    have e1 : ((0 : ℤ) : ℚ) / divsOf LEDs.new.mode + 2 = 2 := by
      norm_num [LEDs.new, divsOf, LEDs.COARSE_DIVS]
    have e2 : ((ineg32 (-500) : ℤ) : ℚ) / divsOf LEDs.new.mode + 2 = 4 := by
      rw [show ineg32 (-500) = 500 from by decide]
      norm_num [LEDs.new, divsOf, LEDs.COARSE_DIVS]
    rw [e1, e2, clamp_two, clamp_eq_four (by norm_num)]

/-- C7: for every z > 0 the returned grid is all-unlit, regardless of x, y and
of the current resolution mode. -/
theorem C7_face_down_all_unlit (l : LEDs) (x y z : ℤ) (hz : 0 < z) :
    ∀ a b : ℕ, (l.update x y z).2 a b = 0 := by
  unfold LEDs.update
  rw [if_pos hz]
  intro a b
  rfl

/-- C7 witness: the spec scenario z = 500 with arbitrary nonzero x, y. -/
theorem C7_face_down_all_unlit_witness :
    (LEDs.new.update 123 (-456) 500).2 2 2 = 0 :=
  C7_face_down_all_unlit LEDs.new 123 (-456) 500 (by decide) 2 2

/-- C10: LEDs::update only writes the state field — the mode field of the
struct it returns is unchanged; LEDs::clear likewise preserves the mode, and
the mode changes exactly through LEDs::set_mode, which writes only the mode
field and preserves the state. -/
theorem C10_update_preserves_mode :
    (∀ l : LEDs, ∀ x y z : ℤ, ((l.update x y z).1).mode = l.mode) ∧
    (∀ l : LEDs, (LEDs.clear l).mode = l.mode) ∧
    (∀ l : LEDs, ∀ m : BubbleResolution, (LEDs.set_mode l m).mode = m) ∧
    (∀ l : LEDs, ∀ m : BubbleResolution, (LEDs.set_mode l m).state = l.state) :=
  ⟨update_fst_mode, fun _ => rfl, fun _ _ => rfl, fun _ _ => rfl⟩

/-- C3: the shared resolution cell only ever holds the two defined byte codes
(0 = Coarse, 1 = Fine): it is initialized to Coarse before interrupts are
enabled, every store performed by the interrupt handler over any sequence of
edge events writes 0 or 1, and the decode done by the main loop (TryFrom u8
followed by unwrap) always succeeds on the loaded byte. -/
theorem C3_resolution_codes :
    initIrqState.resolution = BubbleResolution.Coarse.toU8 ∧
    ∀ events : List (ℕ × Channel),
      ((runEvents initIrqState events).resolution = 0 ∨
        (runEvents initIrqState events).resolution = 1) ∧
      (∀ v ∈ (runEvents initIrqState events).storeLog, v = 0 ∨ v = 1) ∧
      ∃ m : BubbleResolution,
        BubbleResolution.tryFrom ((runEvents initIrqState events).resolution) =
          some m := by
  refine ⟨rfl, fun events => ?_⟩
  have h := runEvents_codes events initIrqState (Or.inl rfl) (by intro v hv; cases hv)
  refine ⟨h.1, h.2, ?_⟩
  rcases h.1 with h0 | h1
  · exact ⟨BubbleResolution.Coarse, by rw [h0]; rfl⟩
  · exact ⟨BubbleResolution.Fine, by rw [h1]; rfl⟩

/-- C3 witness: after a debounced B press the cell holds 1, the logged store
is one of the two codes, and the decode succeeds. -/
theorem C3_resolution_codes_witness :
    ((runEvents initIrqState [(0, Channel.B)]).resolution = 0 ∨
      (runEvents initIrqState [(0, Channel.B)]).resolution = 1) ∧
    (1 = 0 ∨ 1 = 1) ∧
    ∃ m : BubbleResolution,
      BubbleResolution.tryFrom ((runEvents initIrqState [(0, Channel.B)]).resolution) =
        some m :=
  ⟨(C3_resolution_codes.2 [(0, Channel.B)]).1,
    (C3_resolution_codes.2 [(0, Channel.B)]).2.1 1 (by decide),
    (C3_resolution_codes.2 [(0, Channel.B)]).2.2⟩

/-- C4: debounce law over the interrupt-handler step relation — starting from
the ready initial state, two edge events on the same button arriving at ticks
t1 ≤ t2 closer together than the cooldown leave the timer nonzero at the
second event and yield exactly one store to the resolution cell; two events
farther apart than the cooldown find the timer back at zero and yield two
stores. -/
theorem C4_debounce_law (t1 t2 : ℕ) (ch : Channel) (hord : t1 ≤ t2) :
    (t2 - t1 < DEBOUNCE_TIME →
      timerRead (runEvents initIrqState [(t1, ch)]).cooldownEnd t2 ≠ 0 ∧
      (runEvents initIrqState [(t1, ch), (t2, ch)]).storeLog.length = 1) ∧
    (DEBOUNCE_TIME < t2 - t1 →
      timerRead (runEvents initIrqState [(t1, ch)]).cooldownEnd t2 = 0 ∧
      (runEvents initIrqState [(t1, ch), (t2, ch)]).storeLog.length = 2) := by
  have hcool : (runEvents initIrqState [(t1, ch)]).cooldownEnd = t1 + DEBOUNCE_TIME := by
    cases ch <;> simp [runEvents, GPIOTE_step, timerRead, initIrqState]
  constructor
  · intro hlt
    have hne : t1 + DEBOUNCE_TIME - t2 ≠ 0 := by omega
    refine ⟨?_, ?_⟩
    · rw [hcool]
      simpa [timerRead] using hne
    · cases ch <;> simp [runEvents, GPIOTE_step, timerRead, initIrqState, hne]
  · intro hgt
    have heq : t1 + DEBOUNCE_TIME - t2 = 0 := by omega
    refine ⟨?_, ?_⟩
    · rw [hcool]
      simp [timerRead, heq]
    · cases ch <;> simp [runEvents, GPIOTE_step, timerRead, initIrqState, heq]

/-- C4 witness: button A pressed at ticks 0 and 1 (inside the cooldown) stores
once; pressed at ticks 0 and 200000 (past the 100000-tick cooldown) stores
twice. -/
theorem C4_debounce_law_witness :
    (timerRead (runEvents initIrqState [(0, Channel.A)]).cooldownEnd 1 ≠ 0 ∧
      (runEvents initIrqState [(0, Channel.A), (1, Channel.A)]).storeLog.length = 1) ∧
    (timerRead (runEvents initIrqState [(0, Channel.A)]).cooldownEnd 200000 = 0 ∧
      (runEvents initIrqState [(0, Channel.A), (200000, Channel.A)]).storeLog.length = 2) :=
  ⟨(C4_debounce_law 0 1 Channel.A (by decide)).1 (by decide),
    (C4_debounce_law 0 200000 Channel.A (by decide)).2 (by decide)⟩

/-- C5 counterexample: at input (-500, 0, -1000) in Coarse mode the cell the
claim predicts, grid[clamp x_pix][clamp y_pix] = grid[4][2], is unlit — the
lit cell is grid[2][4], so the row index does not derive from the x pixel
coordinate. -/
theorem C5_counterexample :
    LEDs.clamp ((ineg32 (-500) : ℚ) / divsOf LEDs.new.mode + 2) = 4 ∧
    LEDs.clamp (((0 : ℤ) : ℚ) / divsOf LEDs.new.mode + 2) = 2 ∧
    (LEDs.new.update (-500) 0 (-1000)).2 4 2 = 0 ∧
    (LEDs.new.update (-500) 0 (-1000)).2 2 4 = 1 := by
  have e1 : ((0 : ℤ) : ℚ) / divsOf LEDs.new.mode + 2 = 2 := by
    norm_num [LEDs.new, divsOf, LEDs.COARSE_DIVS]
  have e2 : ((ineg32 (-500) : ℤ) : ℚ) / divsOf LEDs.new.mode + 2 = 4 := by
    rw [show ineg32 (-500) = 500 from by decide]
    norm_num [LEDs.new, divsOf, LEDs.COARSE_DIVS]
  have hgrid : (LEDs.new.update (-500) 0 (-1000)).2 = setCell (fun _ _ => 0) 2 4 := by
    rw [update_snd _ _ _ _ (by decide), e1, e2, clamp_two, clamp_eq_four (by norm_num)]
  refine ⟨?_, ?_, ?_, ?_⟩
  · rw [e2]
    exact clamp_eq_four (by norm_num)
  · rw [e1]
    exact clamp_two
  · rw [hgrid]
    simp [setCell]
  · rw [hgrid]
    exact setCell_self _ _ _

/-- C5 amended: for every input with z ≤ 0 the lit cell is
grid[clamp y_pix][clamp x_pix] — the row index derives from the y pixel
coordinate and the column index derives from the x pixel coordinate (the swap
in the claim goes the other way around). -/
theorem C5_amended_row_from_y (l : LEDs) (x y z : ℤ) (hz : z ≤ 0) :
    (l.update x y z).2 (LEDs.clamp ((y : ℚ) / divsOf l.mode + 2))
        (LEDs.clamp ((ineg32 x : ℚ) / divsOf l.mode + 2)) = 1 ∧
    ∀ a b : ℕ, (l.update x y z).2 a b = 1 →
      a = LEDs.clamp ((y : ℚ) / divsOf l.mode + 2) ∧
      b = LEDs.clamp ((ineg32 x : ℚ) / divsOf l.mode + 2) := by
  rw [update_snd l x y z hz]
  refine ⟨setCell_self _ _ _, ?_⟩
  intro a b hab
  by_cases h : a = LEDs.clamp ((y : ℚ) / divsOf l.mode + 2) ∧
      b = LEDs.clamp ((ineg32 x : ℚ) / divsOf l.mode + 2)
  · exact h
  · rw [setCell_of_ne _ h] at hab
    cases hab

/-- C5 amended witness: the scenario input (-500, 0, -1000) in Coarse mode. -/
theorem C5_amended_row_from_y_witness :
    (LEDs.new.update (-500) 0 (-1000)).2
        (LEDs.clamp (((0 : ℤ) : ℚ) / divsOf LEDs.new.mode + 2))
        (LEDs.clamp ((ineg32 (-500) : ℚ) / divsOf LEDs.new.mode + 2)) = 1 ∧
    ∀ a b : ℕ, (LEDs.new.update (-500) 0 (-1000)).2 a b = 1 →
      a = LEDs.clamp (((0 : ℤ) : ℚ) / divsOf LEDs.new.mode + 2) ∧
      b = LEDs.clamp ((ineg32 (-500) : ℚ) / divsOf LEDs.new.mode + 2) :=
  C5_amended_row_from_y LEDs.new (-500) 0 (-1000) (by decide)

/-- C8: rounding law — a pixel coordinate that is exactly the half value
k + 1/2 and lies in the open rounding range (0, 4) clamps to the index k + 1,
rounding the half away from zero (upward for these positive coordinates, not
bankers rounding); a coordinate at most 0 clamps to index 0 and a coordinate
at least 4 clamps to index 4. -/
theorem C8_round_half_up (k : ℤ) (v w : ℚ) (hk0 : 0 ≤ k) (hk4 : k < 4)
    (hv : v ≤ 0) (hw : 4 ≤ w) :
    LEDs.clamp ((k : ℚ) + 1 / 2) = (k + 1).toNat ∧
    LEDs.clamp v = 0 ∧ LEDs.clamp w = 4 := by
  refine ⟨?_, clamp_eq_zero hv, clamp_eq_four hw⟩
  have hk0' : (0 : ℚ) ≤ (k : ℚ) := by exact_mod_cast hk0
  have hk3 : k ≤ 3 := by omega
  have hk4' : (k : ℚ) ≤ 3 := by exact_mod_cast hk3
  rw [clamp_eq_mid (by linarith) (by linarith)]
  rw [round_eq_floor _ (by linarith)]
  have : (k : ℚ) + 1 / 2 + 1 / 2 = ((k + 1 : ℤ) : ℚ) := by
    push_cast
    ring
  rw [this, Int.floor_intCast]

/-- C8 witness: the coordinate 2.5 rounds to index 3; the coordinate 0 clamps
to index 0; the coordinate 4 clamps to index 4. -/
theorem C8_round_half_up_witness :
    LEDs.clamp (((2 : ℤ) : ℚ) + 1 / 2) = ((2 : ℤ) + 1).toNat ∧
    LEDs.clamp 0 = 0 ∧ LEDs.clamp 4 = 4 :=
  C8_round_half_up 2 0 4 (by decide) (by decide) (le_refl 0) (le_refl 4)

/-- C9: resolution-scaling monotonicity — for every fixed (x, y, z) with
z ≤ 0, the cell lit in Fine mode (divisor 25) lies at least as far from the
center cell (2, 2) as the cell lit in Coarse mode (divisor 250), on the same
side of the center along each axis. -/
theorem C9_fine_at_least_as_sensitive (x y z : ℤ) (hz : z ≤ 0) :
    ∃ rC cC rF cF : ℕ,
      ((LEDs.new.set_mode BubbleResolution.Coarse).update x y z).2 =
        setCell (fun _ _ => 0) rC cC ∧
      ((LEDs.new.set_mode BubbleResolution.Fine).update x y z).2 =
        setCell (fun _ _ => 0) rF cF ∧
      ((rF ≤ rC ∧ rC ≤ 2) ∨ (2 ≤ rC ∧ rC ≤ rF)) ∧
      ((cF ≤ cC ∧ cC ≤ 2) ∨ (2 ≤ cC ∧ cC ≤ cF)) := by
  rw [update_snd (LEDs.new.set_mode BubbleResolution.Coarse) x y z hz,
    update_snd (LEDs.new.set_mode BubbleResolution.Fine) x y z hz]
  simp only [LEDs.new, LEDs.set_mode, divsOf, LEDs.COARSE_DIVS, LEDs.FINE_DIVS]
  refine ⟨LEDs.clamp ((y : ℚ) / 250 + 2), LEDs.clamp ((ineg32 x : ℚ) / 250 + 2),
    LEDs.clamp ((y : ℚ) / 25 + 2), LEDs.clamp ((ineg32 x : ℚ) / 25 + 2),
    rfl, rfl, ?_, ?_⟩
  · rcases axis_mono y with h | h
    · exact Or.inl ⟨h.1, h.2⟩
    · exact Or.inr ⟨h.1, h.2⟩
  · rcases axis_mono (ineg32 x) with h | h
    · exact Or.inl ⟨h.1, h.2⟩
    · exact Or.inr ⟨h.1, h.2⟩

/-- C9 witness: the input (300, -100, 0). -/
theorem C9_fine_at_least_as_sensitive_witness :
    ∃ rC cC rF cF : ℕ,
      ((LEDs.new.set_mode BubbleResolution.Coarse).update 300 (-100) 0).2 =
        setCell (fun _ _ => 0) rC cC ∧
      ((LEDs.new.set_mode BubbleResolution.Fine).update 300 (-100) 0).2 =
        setCell (fun _ _ => 0) rF cF ∧
      ((rF ≤ rC ∧ rC ≤ 2) ∨ (2 ≤ rC ∧ rC ≤ rF)) ∧
      ((cF ≤ cC ∧ cC ≤ 2) ∨ (2 ≤ cC ∧ cC ≤ cF)) :=
  C9_fine_at_least_as_sensitive 300 (-100) 0 (by decide)
